import Mathlib

/-!
Verification development for the `anthropic_api_converter` repository:
a translating API gateway (Anthropic Messages surface over AWS Bedrock)
with a Programmatic Tool Calling (PTC) orchestrator.

The definitions below are shallow embeddings of the Python source in
`app/services/ptc_service.py` and `app/services/bedrock_service.py`.
Python dict-shaped content blocks are modelled as a tagged variant
(matching the data model of the design document); Python truthiness on
optional values is modelled explicitly (None = `Option.none`, and the
empty string / empty list / zero are falsy where the source relies on
that).  The one floating-point operation in scope,
`int(total * 1.05)` in the token estimator, is modelled with exact
arithmetic as `21 * total / 20` on `Nat`.
-/

namespace AAC

/-- ASCII-style lowercase of a string, modelling Python `str.lower()`
(the strings the source compares are ASCII). -/
def strLower (s : String) : String :=
  String.mk (s.toList.map Char.toLower)

/-- `isPre p l` holds when the char list `p` starts the char list `l`. -/
def isPre : List Char → List Char → Bool
  | [], _ => true
  | _ :: _, [] => false
  | p :: ps, h :: hs => p == h && isPre ps hs

/-- `hasSub pat hay` : `pat` occurs as a contiguous sublist of `hay`.
Models the Python substring operator `pat in hay` on strings. -/
def hasSub (pat : List Char) : List Char → Bool
  | [] => isPre pat []
  | h :: t => isPre pat (h :: t) || hasSub pat t

/-- Python `pat in s` for strings. -/
def strContains (s pat : String) : Bool :=
  hasSub pat.toList s.toList

/-- Python slice `s[-n:]` (last `n` characters). -/
def strTakeRight (s : String) (n : Nat) : String :=
  String.mk ((s.toList.reverse.take n).reverse)

/-- Python slice `s[:n]` (first `n` characters). -/
def strTake (s : String) (n : Nat) : String :=
  String.mk (s.toList.take n)

/-- The `caller` metadata on a `tool_use` block
(`app/schemas/ptc.py`; carried as a dict in the source). -/
structure Caller where
  ctype : String
  toolId : Option String := none
deriving Repr, DecidableEq

/-- Content block: the tagged variant over the block dicts the source
manipulates (`type` key dispatch in `ptc_service.py` and
`bedrock_service.py`). -/
inductive Block where
  | text (s : String)
  | thinking (s : String)
  | redactedThinking (data : String)
  | toolUse (id : String) (name : String) (input : String) (caller : Option Caller)
  | toolResult (toolUseId : String) (content : String)
  | serverToolUse (id : String) (name : String) (input : String)
  | serverToolResult (toolUseId : String)
  | image
  | document
deriving Repr, DecidableEq

/-- Whether a block is a `thinking` or `redacted_thinking` block. -/
def Block.isThinkingKind : Block → Bool
  | .thinking _ => true
  | .redactedThinking _ => true
  | _ => false

/-- Message content: a string or a list of content blocks. -/
inductive Content where
  | str (s : String)
  | blocks (bs : List Block)
deriving Repr, DecidableEq

/-- A conversation message. -/
structure Message where
  role : String
  content : Content
deriving Repr, DecidableEq

/-- `thinking`/`redacted_thinking` blocks precede every other block. -/
def thinkingFirst (bs : List Block) : Bool :=
  (bs.dropWhile Block.isThinkingKind).all (fun b => !b.isThinkingKind)

/-! ## PTC request classifier (`PTCService.is_ptc_request`) -/

/-- Modelled from the spec: `PTC_BETA_HEADER` of `app/schemas/ptc.py`
(not under `src/`); §4.5 fixes it to `advanced-tool-use-2025-11-20`. -/
def PTC_BETA_HEADER : String := "advanced-tool-use-2025-11-20"

/-- Modelled from the spec: `PTC_TOOL_TYPE` of `app/schemas/ptc.py`
(not under `src/`); §4.5 fixes it to `code_execution_20250825`. -/
def PTC_TOOL_TYPE : String := "code_execution_20250825"

/-- Modelled from the spec: `PTC_ALLOWED_CALLER` of `app/schemas/ptc.py`
(not under `src/`); §3 fixes the non-direct caller to
`code_execution_20250825`. -/
def PTC_ALLOWED_CALLER : String := "code_execution_20250825"

/-- A tool definition as far as the classifier inspects it. -/
structure ToolDef where
  ttype : Option String := none
  name : String := ""
deriving Repr, DecidableEq

/-- `PTCService.is_ptc_request` (`app/services/ptc_service.py:321-350`).
`enabled` is `settings.enable_programmatic_tool_calling`; `betaHeader`
is the raw header (`none` = absent, `""` falsy); `tools` is
`request.tools` (`none` = absent). -/
def isPtcRequest (enabled : Bool) (betaHeader : Option String)
    (tools : Option (List ToolDef)) : Bool :=
  if !enabled then false
  else
    match betaHeader with
    | none => false
    | some h =>
      if h == "" then false
      else if !strContains h PTC_BETA_HEADER then false
      else
        match tools with
        | none => false
        | some ts =>
          if ts.isEmpty then false
          else ts.any (fun t => t.ttype == some PTC_TOOL_TYPE)

/-! ## Minimal continuation responses
(`PTCService._build_tool_use_response_minimal`,
`PTCService._build_batch_tool_use_response_minimal`) -/

/-- `usage` of a response. -/
structure Usage where
  inputTokens : Nat
  outputTokens : Nat
deriving Repr, DecidableEq

/-- The response fields the PTC builders populate. -/
structure MessageResponse where
  id : String
  role : String
  content : List Block
  model : String
  stopReason : String
  usage : Usage
deriving Repr, DecidableEq

/-- A tool call yielded by the sandbox generator. -/
structure ToolCallReq where
  callId : String
  toolName : String
  arguments : String
deriving Repr, DecidableEq

/-- `PTCService._build_tool_use_response_minimal`
(`app/services/ptc_service.py:1708-1747`).  `freshId` stands for the
`uuid4().hex[:12]` suffix drawn at run time. -/
def buildToolUseResponseMinimal (toolRequest : ToolCallReq)
    (codeExecutionToolId : String) (model : String)
    (freshId msgId : String) : MessageResponse :=
  { id := "msg_" ++ msgId
    role := "assistant"
    content := [Block.toolUse ("toolu_" ++ freshId) toolRequest.toolName
      toolRequest.arguments (some { ctype := PTC_ALLOWED_CALLER, toolId := some codeExecutionToolId })]
    model := model
    stopReason := "tool_use"
    usage := { inputTokens := 0, outputTokens := 0 } }

/-- `PTCService._build_batch_tool_use_response_minimal`
(`app/services/ptc_service.py:1749-1792`). -/
def buildBatchToolUseResponseMinimal (batch : List ToolCallReq)
    (codeExecutionToolId : String) (model : String)
    (msgId : String) : MessageResponse :=
  { id := "msg_" ++ msgId
    role := "assistant"
    content := batch.map (fun r =>
      Block.toolUse ("toolu_" ++ strTake r.callId 12) r.toolName r.arguments
        (some { ctype := PTC_ALLOWED_CALLER, toolId := some codeExecutionToolId }))
    model := model
    stopReason := "tool_use"
    usage := { inputTokens := 0, outputTokens := 0 } }

/-! ## Token estimator (`BedrockService._estimate_token_count`,
`BedrockService._is_cjk_char`) -/

/-- `BedrockService._is_cjk_char` (`app/services/bedrock_service.py:1441-1468`). -/
def isCjkChar (c : Char) : Bool :=
  let n := c.toNat
  (0x4E00 ≤ n && n ≤ 0x9FFF) ||
  (0x3400 ≤ n && n ≤ 0x4DBF) ||
  (0x20000 ≤ n && n ≤ 0x2A6DF) ||
  (0x2A700 ≤ n && n ≤ 0x2B73F) ||
  (0x2B740 ≤ n && n ≤ 0x2B81F) ||
  (0x2B820 ≤ n && n ≤ 0x2CEAF) ||
  (0xF900 ≤ n && n ≤ 0xFAFF) ||
  (0x2F800 ≤ n && n ≤ 0x2FA1F) ||
  (0x3040 ≤ n && n ≤ 0x309F) ||
  (0x30A0 ≤ n && n ≤ 0x30FF) ||
  (0xAC00 ≤ n && n ≤ 0xD7AF)

/-- Per-text token contribution of the estimator loop body
(`cjk_chars + non_cjk_chars // 4`, with `non_cjk_chars = len - cjk`). -/
def textTokens (s : String) : Nat :=
  let l := s.toList
  let cjk := (l.filter isCjkChar).length
  cjk + (l.length - cjk) / 4

/-- Content entry of a Converse-shaped message, as far as the estimator
inspects it (`"text" in content`, `"image" in content`,
`"document" in content`). -/
inductive BContent where
  | btext (s : String)
  | bimage
  | bdocument
  | bother
deriving Repr, DecidableEq

/-- Converse-shaped message. -/
structure BMessage where
  content : List BContent
deriving Repr, DecidableEq

/-- Converse-shaped tool spec (`toolSpec` entry). -/
structure ToolSpec where
  name : String
  description : String
  schemaJson : Option String := none
deriving Repr, DecidableEq

/-- The Converse-shaped request the estimator walks
(`anthropic_to_bedrock.convert_request` output; the converter itself is
outside the estimator).  System entries without a `"text"` key (cache
points) are `none`; `toolConfig` entries without a `"toolSpec"` key are
`none`. -/
structure BedrockShapedRequest where
  system : List (Option String) := []
  messages : List BMessage := []
  tools : List (Option ToolSpec) := []
deriving Repr, DecidableEq

/-- The texts `_estimate_token_count` collects, in source order:
system texts, message text entries, then per tool its name, description
and (when present) the JSON-dumped input schema. -/
def collectTexts (req : BedrockShapedRequest) : List String :=
  (req.system.filterMap id) ++
  (req.messages.flatMap (fun m => m.content.filterMap (fun c =>
    match c with
    | .btext s => some s
    | _ => none))) ++
  (req.tools.flatMap (fun t =>
    match t with
    | some spec => [spec.name, spec.description] ++
        (match spec.schemaJson with
         | some j => [j]
         | none => [])
    | none => []))

/-- Image blocks counted by the estimator. -/
def countImages (req : BedrockShapedRequest) : Nat :=
  (req.messages.flatMap (fun m => m.content)).countP (fun c => c == BContent.bimage)

/-- Document blocks counted by the estimator (the source tests
`"image" in content` before `elif "document" in content`; with tagged
variants the two are disjoint). -/
def countDocuments (req : BedrockShapedRequest) : Nat :=
  (req.messages.flatMap (fun m => m.content)).countP (fun c => c == BContent.bdocument)

/-- `BedrockService._estimate_token_count`
(`app/services/bedrock_service.py:1360-1439`), after request
conversion: walks collected texts (skipping falsy empty texts), adds
85 per image and 250 per document content entry, applies the 5%
overhead `int(total * 1.05)` — modelled exactly as `21 * total / 20` —
and returns `max 1` of the result. -/
def estStep (acc : Nat) (t : String) : Nat :=
  if t == "" then acc else acc + textTokens t

def estimateTokenCount (req : BedrockShapedRequest) : Nat :=
  let base := (collectTexts req).foldl estStep 0
  let total := base + 85 * countImages req + 250 * countDocuments req
  max 1 (21 * total / 20)

/-! ## Assistant-content Bedrock filter
(`_filter_content_blocks_for_bedrock`, `app/services/ptc_service.py:204-279`) -/

/-- Loop body of `_filter_content_blocks_for_bedrock`: the accumulator
is `(thinking_blocks, other_blocks)`.  Caller truthiness follows the
source: an empty caller type string is falsy, so only a present,
non-empty, non-`"direct"` caller type filters the block. -/
def fcbStep (acc : List Block × List Block) (b : Block) : List Block × List Block :=
  match b with
  | .serverToolUse _ _ _ => acc
  | .serverToolResult _ => acc
  | .toolUse id name input caller =>
    match caller with
    | some c =>
      if c.ctype != "" && c.ctype != "direct" then acc
      else (acc.1, acc.2 ++ [Block.toolUse id name input none])
    | none => (acc.1, acc.2 ++ [Block.toolUse id name input none])
  | .thinking s => (acc.1 ++ [Block.thinking s], acc.2)
  | .redactedThinking d => (acc.1 ++ [Block.redactedThinking d], acc.2)
  | other => (acc.1, acc.2 ++ [other])

/-- `_filter_content_blocks_for_bedrock`: drop `server_tool_use` /
`server_tool_result` blocks and non-direct `tool_use` blocks, strip
`caller` from the remaining `tool_use` blocks, and return thinking
blocks first. -/
def filterContentBlocksForBedrock (blocks : List Block) : List Block :=
  let p := blocks.foldl fcbStep ([], [])
  p.1 ++ p.2

/-! ## Conversation-history filter
(`_filter_non_direct_tool_calls`, `app/services/ptc_service.py:41-201`) -/

/-- Whether a `tool_use` caller is present and non-direct (source test
`caller_type and caller_type != "direct"`). -/
def callerNonDirect : Option Caller → Bool
  | some c => c.ctype != "" && c.ctype != "direct"
  | none => false

/-- First pass of `_filter_non_direct_tool_calls`: collect the ids of
`server_tool_use` blocks and of non-direct `tool_use` blocks from
assistant messages with block-list content (a falsy empty id is not
collected). -/
def nonDirectToolIds (messages : List Message) : List String :=
  messages.flatMap (fun m =>
    if m.role != "assistant" then []
    else
      match m.content with
      | .str _ => []
      | .blocks bs => bs.filterMap (fun b =>
        match b with
        | .serverToolUse id _ _ => if id != "" then some id else none
        | .toolUse id _ _ caller =>
          if callerNonDirect caller && id != "" then some id else none
        | _ => none))

/-- First pass of `_filter_non_direct_tool_calls`: whether any
`tool_use` block of an assistant message carries a `caller` field. -/
def anyCallerField (messages : List Message) : Bool :=
  messages.any (fun m =>
    m.role == "assistant" &&
    (match m.content with
     | .str _ => false
     | .blocks bs => bs.any (fun b =>
        match b with
        | .toolUse _ _ _ (some _) => true
        | _ => false)))

/-- Second-pass loop body of `_filter_non_direct_tool_calls` for one
block of a message with role `role`: accumulator is
`(thinking_blocks, other_blocks)`. -/
def fndStep (ids : List String) (role : String)
    (acc : List Block × List Block) (b : Block) : List Block × List Block :=
  match b with
  | .serverToolUse _ _ _ => acc
  | .toolUse id name input _ =>
    if ids.contains id then acc
    else (acc.1, acc.2 ++ [Block.toolUse id name input none])
  | .toolResult tid content =>
    if ids.contains tid then acc
    else (acc.1, acc.2 ++ [Block.toolResult tid content])
  | .thinking s =>
    if role == "assistant" then (acc.1 ++ [Block.thinking s], acc.2)
    else (acc.1, acc.2 ++ [Block.thinking s])
  | .redactedThinking d =>
    if role == "assistant" then (acc.1 ++ [Block.redactedThinking d], acc.2)
    else (acc.1, acc.2 ++ [Block.redactedThinking d])
  | other => (acc.1, acc.2 ++ [other])

/-- `_filter_non_direct_tool_calls`: when nothing needs rewriting the
input is returned unchanged (early return); otherwise each block-list
message is filtered, assistant thinking blocks are moved first, and
messages emptied by the filter are dropped. -/
def filterNonDirectToolCalls (messages : List Message) : List Message :=
  let ids := nonDirectToolIds messages
  if ids.isEmpty && !anyCallerField messages then messages
  else
    messages.filterMap (fun m =>
      match m.content with
      | .str _ => some m
      | .blocks bs =>
        let p := bs.foldl (fndStep ids m.role) ([], [])
        let filtered := p.1 ++ p.2
        if filtered.isEmpty then none
        else some { m with content := .blocks filtered })

/-! ## Native-request message conversion
(`BedrockService._convert_to_anthropic_native_request`,
`app/services/bedrock_service.py:174-214`) -/

/-- The messages part of `_convert_to_anthropic_native_request`: blocks
are copied in order, with only the `caller` field stripped from
`tool_use` blocks. -/
def convertMessagesNative (messages : List Message) : List Message :=
  messages.map (fun m =>
    match m.content with
    | .str s => { m with content := .str s }
    | .blocks bs =>
      { m with content := .blocks (bs.map (fun b =>
          match b with
          | .toolUse id name input _ => Block.toolUse id name input none
          | other => other)) })

/-! ## PTC finalization: continuation message rebuild
(`PTCService._finalize_code_execution`,
`app/services/ptc_service.py:1479-1619`, and
`PTCService._finalize_code_execution_streaming`,
`app/services/ptc_service.py:2975-3041`) -/

/-- Result of a sandbox run (`ExecutionResult`). -/
structure ExecutionResult where
  success : Bool
  stdout : String
  stderr : String
deriving Repr, DecidableEq

/-- The `tool_result` content built at finalization: stdout on
success (placeholder when stdout is falsy), `"Error: " + stderr` on
failure. -/
def toolResultContent (r : ExecutionResult) : String :=
  if r.success then
    (if r.stdout == "" then "(Code executed successfully with no output)" else r.stdout)
  else "Error: " ++ r.stderr

/-- Whether a block-list content contains a `tool_result` block
(`has_tool_result` test of the finalization loops). -/
def contentHasToolResult : Content → Bool
  | .str _ => false
  | .blocks bs => bs.any (fun b =>
      match b with
      | .toolResult _ _ => true
      | _ => false)

/-- Index of the last assistant message
(`last_assistant_idx` of `_finalize_code_execution`, a reverse scan
with `-1` = `none` when no assistant message exists). -/
def lastAssistantIdx : List Message → Option Nat
  | [] => none
  | m :: rest =>
    match lastAssistantIdx rest with
    | some i => some (i + 1)
    | none => if m.role == "assistant" then some 0 else none

/-- The index-independent part of the keep-loop of
`_finalize_code_execution`: skip user messages whose block content
contains any `tool_result`; Bedrock-filter the block content of kept
assistant messages, dropping those emptied. -/
def keepAtFinalize (m : Message) : Option Message :=
  if m.role == "user" && contentHasToolResult m.content then none
  else
    match m.content with
    | .str _ => some m
    | .blocks bs =>
      if m.role == "assistant" then
        let filtered := filterContentBlocksForBedrock bs
        if filtered.isEmpty then none
        else some { m with content := .blocks filtered }
      else some m

/-- The indexed keep-loop of `_finalize_code_execution`: the message at
`last_assistant_idx` is skipped, the rest go through `keepAtFinalize`. -/
def finalizeKeptAux (lastIdx : Option Nat) : Nat → List Message → List Message
  | _, [] => []
  | i, m :: rest =>
    if m.role == "assistant" &&
        (match lastIdx with
         | some k => k == i
         | none => false) then
      finalizeKeptAux lastIdx (i + 1) rest
    else
      match keepAtFinalize m with
      | some m' => m' :: finalizeKeptAux lastIdx (i + 1) rest
      | none => finalizeKeptAux lastIdx (i + 1) rest

/-- The keep-loop of `_finalize_code_execution` (stored-content
branch). -/
def finalizeKeptMessages (msgs : List Message) : List Message :=
  finalizeKeptAux (lastAssistantIdx msgs) 0 msgs

/-- Index-free description of the keep-loop: the assistant message
followed by no further assistant message is the one skipped. -/
def finalizeKeptMessagesAmended : List Message → List Message
  | [] => []
  | m :: rest =>
    if m.role == "assistant" && !(rest.any (fun x => x.role == "assistant")) then
      finalizeKeptMessagesAmended rest
    else
      match keepAtFinalize m with
      | some m' => m' :: finalizeKeptMessagesAmended rest
      | none => finalizeKeptMessagesAmended rest

/-- `toolu_` fallback id from the last 12 characters of the
code-execution tool id (`f"toolu_{code_execution_tool_id[-12:]}"`). -/
def fallbackExecId (codeExecutionToolId : String) : String :=
  "toolu_" ++ strTakeRight codeExecutionToolId 12

/-- `execution_state.original_execute_code_id or f"toolu_{...}"`. -/
def resolvedExecId (originalExecuteCodeId : Option String)
    (codeExecutionToolId : String) : String :=
  match originalExecuteCodeId with
  | some id => if id != "" then id else fallbackExecId codeExecutionToolId
  | none => fallbackExecId codeExecutionToolId

/-- `_finalize_code_execution` message rebuild, in the branch where
`execution_state.original_assistant_content` is non-empty: kept client
messages, then the Bedrock-filtered stored assistant content, then the
`tool_result` user message targeting the stored execute_code id. -/
def finalizeMessages (msgs : List Message) (storedContent : List Block)
    (originalExecuteCodeId : Option String) (codeExecutionToolId : String)
    (result : ExecutionResult) : List Message :=
  let execId := resolvedExecId originalExecuteCodeId codeExecutionToolId
  finalizeKeptMessages msgs ++
  [{ role := "assistant", content := .blocks (filterContentBlocksForBedrock storedContent) },
   { role := "user", content := .blocks [Block.toolResult execId (toolResultContent result)] }]

/-- `_finalize_code_execution_streaming` message rebuild (stored-content
branch): ALL assistant messages are skipped, user messages with any
`tool_result` are skipped, the remaining messages are kept verbatim,
then the filtered stored assistant content and the `tool_result` user
message are appended. -/
def finalizeMessagesStreaming (msgs : List Message) (storedContent : List Block)
    (originalExecuteCodeId : Option String) (codeExecutionToolId : String)
    (result : ExecutionResult) : List Message :=
  let execId := resolvedExecId originalExecuteCodeId codeExecutionToolId
  (msgs.filter (fun m =>
    !(m.role == "assistant") &&
    !(m.role == "user" && contentHasToolResult m.content))) ++
  [{ role := "assistant", content := .blocks (filterContentBlocksForBedrock storedContent) },
   { role := "user", content := .blocks [Block.toolResult execId (toolResultContent result)] }]

/-- The message rebuild the claim describes, written from its words:
keep all client messages except the last assistant message and any
user message whose content contains a `tool_result` for an internal
(non-direct) call, then append the stored assistant content, then the
`tool_result` user message.  Internal call ids are the ids of
`server_tool_use` blocks and of `tool_use` blocks with a non-direct
caller. -/
def finalizeMessagesClaim (msgs : List Message) (storedContent : List Block)
    (originalExecuteCodeId : Option String) (codeExecutionToolId : String)
    (result : ExecutionResult) : List Message :=
  let internalIds := nonDirectToolIds msgs
  let lastIdx := lastAssistantIdx msgs
  let execId := resolvedExecId originalExecuteCodeId codeExecutionToolId
  (msgs.enum.filterMap (fun p =>
    let m := p.2
    if m.role == "assistant" && lastIdx == some p.1 then none
    else if m.role == "user" &&
        (match m.content with
         | .str _ => false
         | .blocks bs => bs.any (fun b =>
            match b with
            | .toolResult tid _ => internalIds.contains tid
            | _ => false)) then none
    else some m)) ++
  [{ role := "assistant", content := .blocks storedContent },
   { role := "user", content := .blocks [Block.toolResult execId (toolResultContent result)] }]

/-! ## PTC finalization: parameter snapshot selection
(`_finalize_code_execution`, `app/services/ptc_service.py:1432-1473`;
`_finalize_code_execution_streaming`,
`app/services/ptc_service.py:2963-2973`) -/

/-- The request parameters involved in continuation rebuild.  Values
are carried opaquely; `Option.none` models Python `None`, and the
falsy values the source tests for are the empty string, `0` and the
empty list. -/
structure RequestParams where
  system : Option String := none
  model : String := ""
  maxTokens : Nat := 0
  temperature : Option String := none
  topP : Option String := none
  topK : Option String := none
  stopSequences : List String := []
  toolChoice : Option String := none
  thinking : Option String := none
deriving Repr, DecidableEq

/-- The snapshot stored in `PTCExecutionState` when the session pauses:
the originating request's parameters plus the beta header. -/
structure Snapshot where
  params : RequestParams
  anthropicBeta : Option String := none
deriving Repr, DecidableEq

/-- Continuation parameters as selected by `_finalize_code_execution`:
`system`/`temperature`/`top_p`/`top_k` fall back to the continuation
request when the snapshot holds `None`; `model`/`max_tokens`/
`stop_sequences`/`tool_choice`/`thinking` fall back when the snapshot
value is falsy; the beta header comes only from the snapshot. -/
def effectiveParams (state : Snapshot) (cont : RequestParams) :
    RequestParams × Option String :=
  ({ system :=
      match state.params.system with
      | some s => some s
      | none => cont.system
     model := if state.params.model != "" then state.params.model else cont.model
     maxTokens := if state.params.maxTokens != 0 then state.params.maxTokens else cont.maxTokens
     temperature :=
      match state.params.temperature with
      | some t => some t
      | none => cont.temperature
     topP :=
      match state.params.topP with
      | some t => some t
      | none => cont.topP
     topK :=
      match state.params.topK with
      | some t => some t
      | none => cont.topK
     stopSequences :=
      if !state.params.stopSequences.isEmpty then state.params.stopSequences
      else cont.stopSequences
     toolChoice :=
      match state.params.toolChoice with
      | some t => if t != "" then some t else cont.toolChoice
      | none => cont.toolChoice
     thinking :=
      match state.params.thinking with
      | some t => if t != "" then some t else cont.thinking
      | none => cont.thinking },
   match state.anthropicBeta with
   | some b => if b != "" then some b else none
   | none => none)

/-! ## Continuation session lookup
(`handle_tool_result_continuation`, `app/services/ptc_service.py:1218-1237`;
`handle_tool_result_continuation_streaming`,
`app/services/ptc_service.py:2675-2700`) -/

/-- The error message both continuation entry points build when the
container id matches no stored `PTCExecutionState` on this node. -/
def sessionNotFoundMessage (sessionId instanceId : String)
    (sessionTimeout activeSessions : Nat) : String :=
  "PTC session \x27" ++ sessionId ++ "\x27 not found on this instance (instance_id: " ++
  instanceId ++ "). This typically indicates a multi-instance routing issue. " ++
  "Possible causes: (1) ALB sticky session expired (session timeout: " ++
  toString sessionTimeout ++ "s), (2) Instance was restarted and lost in-memory sessions, " ++
  "(3) Load balancer routed continuation request to a different instance. " ++
  "Active sessions on this instance: " ++ toString activeSessions ++ ". " ++
  "Solution: Ensure ALB sticky sessions are enabled with sufficient duration, " ++
  "or create a new PTC session."

/-- Association-list lookup modelling `self._execution_states.get`. -/
def lookupState {α : Type} (states : List (String × α)) (sid : String) : Option α :=
  (states.find? (fun p => p.1 == sid)).map (fun p => p.2)

/-- Entry check of `handle_tool_result_continuation`: on a miss the
coroutine raises `ValueError` with the detailed message (no session is
created); otherwise it proceeds with the stored state. -/
def continuationLookup {α : Type} (states : List (String × α))
    (sessionId instanceId : String) (sessionTimeout : Nat) : Except String α :=
  match lookupState states sessionId with
  | none => .error (sessionNotFoundMessage sessionId instanceId sessionTimeout states.length)
  | some st => .ok st

/-- An SSE error event payload (`{"type": "error", "error": {...}}`). -/
structure SseErrorEvent where
  errorType : String
  message : String
deriving Repr, DecidableEq

/-- Entry check of `handle_tool_result_continuation_streaming`: on a
miss the generator yields a single SSE `error` event whose inner error
type is `api_error`, then returns. -/
def continuationStreamingMiss {α : Type} (states : List (String × α))
    (sessionId instanceId : String) (sessionTimeout : Nat) : Option SseErrorEvent :=
  match lookupState states sessionId with
  | none => some
      { errorType := "api_error"
        message := sessionNotFoundMessage sessionId instanceId sessionTimeout states.length }
  | some _ => none

/-! ## Converse stream: synthesized `content_block_start`
(`BedrockService._process_stream_event`,
`app/services/bedrock_service.py:1102-1127`) -/

/-- The `contentBlockDelta` payload as far as the synthesizer inspects
it: an optional `contentBlockIndex` (default 0) and whether the delta
carries `reasoningContent`. -/
structure DeltaData where
  contentBlockIndex : Option Nat := none
  hasReasoningContent : Bool := false
deriving Repr, DecidableEq

/-- A Bedrock stream event as far as `_process_stream_event` inspects
it for start-injection. -/
structure StreamEvent where
  contentBlockDelta : Option DeltaData := none
deriving Repr, DecidableEq

/-- An emitted Anthropic stream event: either a synthesized
`content_block_start` (with its index and block type) or an event
produced by the downstream converter (kept abstract). -/
inductive EmittedEvent (α : Type) where
  | blockStart (index : Nat) (blockType : String)
  | converted (e : α)
deriving Repr, DecidableEq

/-- `_process_stream_event`, start-injection part: `converted` is the
output of `bedrock_to_anthropic.convert_stream_event` for this event
(the converter lives outside this function).  Returns the emitted
events in order and the updated seen-index set. -/
def processStreamEvent {α : Type} (ev : StreamEvent) (converted : List α)
    (seen : List Nat) : List (EmittedEvent α) × List Nat :=
  match ev.contentBlockDelta with
  | some d =>
    let idx := d.contentBlockIndex.getD 0
    if seen.contains idx then (converted.map .converted, seen)
    else
      let blockType := if d.hasReasoningContent then "thinking" else "text"
      (EmittedEvent.blockStart idx blockType :: converted.map .converted, idx :: seen)
  | none => (converted.map .converted, seen)

/-! ## Service-tier fallback
(`BedrockService._invoke_model_sync`,
`app/services/bedrock_service.py:498-536`;
`BedrockService._stream_worker`,
`app/services/bedrock_service.py:947-984`) -/

/-- The retry condition of both invokers: a truthy, non-default
effective service tier, and a lowercased error message containing
`"serviceTier"`, `"service tier"` or `"does not support"` (the first
pattern is compared case-sensitively against the lowercased message). -/
def serviceTierRetryCondition (effectiveServiceTier : String) (errorMessage : String) : Bool :=
  effectiveServiceTier != "" && effectiveServiceTier != "default" &&
  (strContains (strLower errorMessage) "serviceTier" ||
   strContains (strLower errorMessage) "service tier" ||
   strContains (strLower errorMessage) "does not support")

/-- Outcome of one backend call: success, a botocore `ClientError`
with code and message, or any other exception. -/
inductive CallOutcome (α : Type) where
  | ok (r : α)
  | clientErr (code message : String)
  | otherErr (message : String)
deriving Repr, DecidableEq

/-- Error-handling skeleton of `_invoke_model_sync` on the Converse
path: `first` is the initial `client.converse` outcome, `retry` the
outcome of the retry without `serviceTier`.  Surfaced errors are the
`(code, message)` pairs handed to `map_bedrock_error`; a non-client
initial failure is wrapped as an internal error. -/
def invokeSyncOutcome {α : Type} (effectiveServiceTier : String)
    (first : CallOutcome α) (retry : CallOutcome α) : Except (String × String) α :=
  match first with
  | .ok r => .ok r
  | .otherErr m => .error ("InternalError", "Failed to invoke Bedrock model: " ++ m)
  | .clientErr c m =>
    if serviceTierRetryCondition effectiveServiceTier m then
      match retry with
      | .ok r => .ok r
      | .clientErr rc rm => .error (rc, rm)
      | .otherErr _ => .error (c, m)
    else .error (c, m)

/-- Terminal tag a stream worker posts on the bridge queue. -/
inductive WorkerEnd where
  | done
  | errored (code message : String)
deriving Repr, DecidableEq

/-- Error-handling skeleton of `_stream_worker`: on a `ClientError`
matching the retry condition the worker retries once without
`serviceTier`; `retryOk` is true when that retry call succeeds and
returns a stream.  Any failed retry falls through to posting the
ORIGINAL `(code, message)` on the queue. -/
def streamWorkerEnd (effectiveServiceTier : String)
    (first : CallOutcome Unit) (retryOk : Bool) : WorkerEnd :=
  match first with
  | .ok _ => .done
  | .otherErr m => .errored "internal_error" m
  | .clientErr c m =>
    if serviceTierRetryCondition effectiveServiceTier m then
      if retryOk then .done else .errored c m
    else .errored c m

/-- The match predicate as the claim states it: the error message
matches `serviceTier`, `service tier` or `does not support`. -/
def claimServiceTierMatch (errorMessage : String) : Bool :=
  strContains errorMessage "serviceTier" ||
  strContains errorMessage "service tier" ||
  strContains errorMessage "does not support"

/-! ## Helper lemmas -/

theorem isPre_append (p l1 l2 : List Char) (h : isPre p l1 = true) :
    isPre p (l1 ++ l2) = true := by
  induction p generalizing l1 with
  | nil => rfl
  | cons x ps ih =>
    cases l1 with
    | nil => simp [isPre] at h
    | cons y t =>
      simp only [isPre, Bool.and_eq_true] at h
      simp only [List.cons_append, isPre, Bool.and_eq_true]
      exact ⟨h.1, ih t h.2⟩

theorem hasSub_nil_pat (l : List Char) : hasSub [] l = true := by
  cases l with
  | nil => rfl
  | cons h t => simp [hasSub, isPre]

theorem hasSub_append_left (p l1 l2 : List Char) (h : hasSub p l1 = true) :
    hasSub p (l1 ++ l2) = true := by
  induction l1 with
  | nil =>
    cases p with
    | nil => exact hasSub_nil_pat l2
    | cons x ps => simp [hasSub, isPre] at h
  | cons y t ih =>
    simp only [hasSub, Bool.or_eq_true] at h
    simp only [List.cons_append, hasSub, Bool.or_eq_true]
    rcases h with h | h
    · exact Or.inl (by simpa using isPre_append p (y :: t) l2 h)
    · exact Or.inr (ih h)

theorem hasSub_append_right (p l1 l2 : List Char) (h : hasSub p l2 = true) :
    hasSub p (l1 ++ l2) = true := by
  induction l1 with
  | nil => simpa using h
  | cons y t ih =>
    simp only [List.cons_append, hasSub, Bool.or_eq_true]
    exact Or.inr ih

theorem strContains_append_of_left (s t p : String) (h : strContains s p = true) :
    strContains (s ++ t) p = true := by
  unfold strContains at *
  have : (s ++ t).toList = s.toList ++ t.toList := by
    simp [String.toList, String.data_append]
  rw [this]
  exact hasSub_append_left _ _ _ h

theorem strContains_append_of_right (s t p : String) (h : strContains t p = true) :
    strContains (s ++ t) p = true := by
  unfold strContains at *
  have : (s ++ t).toList = s.toList ++ t.toList := by
    simp [String.toList, String.data_append]
  rw [this]
  exact hasSub_append_right _ _ _ h

/-! ## C7 -/

/-- C7: a request is classified as PTC iff PTC is enabled in
configuration, the beta header is present and contains
`advanced-tool-use-2025-11-20`, and the request's tools contain at
least one tool of type `code_execution_20250825`. -/
theorem c7_is_ptc_request_iff (enabled : Bool) (beta : Option String)
    (tools : Option (List ToolDef)) :
    isPtcRequest enabled beta tools = true ↔
      enabled = true ∧
      (∃ h, beta = some h ∧ strContains h PTC_BETA_HEADER = true) ∧
      (∃ ts, tools = some ts ∧ ∃ t ∈ ts, t.ttype = some PTC_TOOL_TYPE) := by
  unfold isPtcRequest
  cases enabled with
  | false => simp
  | true =>
    cases beta with
    | none => simp
    | some h =>
      by_cases hh : h = ""
      · subst hh
        have : strContains "" PTC_BETA_HEADER = false := by decide
        simp [this]
      · have hne : (h == "") = false := by
          simp [hh]
        by_cases hc : strContains h PTC_BETA_HEADER = true
        · cases tools with
          | none => simp [hne, hc]
          | some ts =>
            by_cases hts : ts.isEmpty
            · have : ts = [] := by simpa [List.isEmpty_iff] using hts
              subst this
              simp [hne, hc]
            · simp only [hne, Bool.false_eq_true, if_false, hc, Bool.not_true,
                if_neg, hts]
              simp only [List.any_eq_true]
              constructor
              · rintro ⟨t, ht, htt⟩
                exact ⟨by trivial, ⟨h, rfl, hc⟩, ts, rfl, t, ht, by simpa using htt⟩
              · rintro ⟨-, -, ts', hts', t, ht, htt⟩
                cases hts'
                exact ⟨t, ht, by simpa using htt⟩
        · have hcf : strContains h PTC_BETA_HEADER = false := by
            simpa using hc
          simp [hne, hcf]

/-! ## C10 -/

/-- C10: the minimal responses the PTC orchestrator builds for a
continuation turn whose sandbox yields another tool call (single or
batch) have `stop_reason = "tool_use"` and report zero input and
output tokens. -/
theorem c10_minimal_responses_no_usage (tr : ToolCallReq) (batch : List ToolCallReq)
    (codeExecutionToolId model freshId msgId msgId2 : String) :
    (buildToolUseResponseMinimal tr codeExecutionToolId model freshId msgId).stopReason = "tool_use" ∧
    (buildToolUseResponseMinimal tr codeExecutionToolId model freshId msgId).usage =
      { inputTokens := 0, outputTokens := 0 } ∧
    (buildBatchToolUseResponseMinimal batch codeExecutionToolId model msgId2).stopReason = "tool_use" ∧
    (buildBatchToolUseResponseMinimal batch codeExecutionToolId model msgId2).usage =
      { inputTokens := 0, outputTokens := 0 } :=
  ⟨rfl, rfl, rfl, rfl⟩

/-! ## C5 -/

/-- C5: when a `contentBlockDelta` arrives for an index with no emitted
`content_block_start`, the converter emits a synthesized
`content_block_start` for that index before every converted event, of
type `thinking` when the delta carries `reasoningContent` and `text`
otherwise, and marks the index as seen. -/
theorem c5_synthesized_block_start {α : Type} (ev : StreamEvent) (d : DeltaData)
    (converted : List α) (seen : List Nat)
    (hd : ev.contentBlockDelta = some d)
    (hunseen : seen.contains (d.contentBlockIndex.getD 0) = false) :
    processStreamEvent ev converted seen =
      (EmittedEvent.blockStart (d.contentBlockIndex.getD 0)
          (if d.hasReasoningContent then "thinking" else "text") ::
        converted.map EmittedEvent.converted,
       d.contentBlockIndex.getD 0 :: seen) := by
  unfold processStreamEvent
  rw [hd]
  have hnotmem : d.contentBlockIndex.getD 0 ∉ seen := by simpa using hunseen
  simp [hnotmem]

/-- C5 witness: a delta for unseen index 2 carrying `reasoningContent`
yields a synthesized `thinking` start ahead of the converted events. -/
theorem c5_witness :
    ({ contentBlockDelta := some { contentBlockIndex := some 2, hasReasoningContent := true } } :
        StreamEvent).contentBlockDelta =
      some { contentBlockIndex := some 2, hasReasoningContent := true } ∧
    ([0, 1].contains (((some 2 : Option Nat)).getD 0)) = false ∧
    processStreamEvent
      ({ contentBlockDelta := some { contentBlockIndex := some 2, hasReasoningContent := true } })
      ["delta-event"] [0, 1] =
      (EmittedEvent.blockStart 2 "thinking" :: [EmittedEvent.converted "delta-event"], [2, 0, 1]) :=
  ⟨rfl, by decide,
    by
      have := c5_synthesized_block_start
        { contentBlockDelta := some { contentBlockIndex := some 2, hasReasoningContent := true } }
        { contentBlockIndex := some 2, hasReasoningContent := true }
        ["delta-event"] [0, 1] rfl (by decide)
      simpa using this⟩

/-! ## C2 -/

/-- C2 counterexample: a snapshot whose stored temperature is `None`
(the original request did not set one) makes finalization take the
temperature the client supplied on the continuation request. -/
theorem c2_counterexample :
    (effectiveParams
        { params := { system := some "orig-system", model := "claude-x", maxTokens := 64 },
          anthropicBeta := some "beta-1" }
        { temperature := some "0.9" }).1.temperature = some "0.9" ∧
    ({ params := { system := some "orig-system", model := "claude-x", maxTokens := 64 },
       anthropicBeta := some "beta-1" } : Snapshot).params.temperature = none :=
  ⟨rfl, rfl⟩

/-- A snapshot holding a usable value for every parameter: non-`None`
`system`/`temperature`/`top_p`/`top_k` and truthy `model`/`max_tokens`/
`stop_sequences`/`tool_choice`/`thinking`. -/
def snapshotComplete (s : Snapshot) : Bool :=
  s.params.system.isSome && (s.params.model != "") && (s.params.maxTokens != 0) &&
  s.params.temperature.isSome && s.params.topP.isSome && s.params.topK.isSome &&
  !s.params.stopSequences.isEmpty &&
  (match s.params.toolChoice with
   | some t => t != ""
   | none => false) &&
  (match s.params.thinking with
   | some t => t != ""
   | none => false)

/-- C2 amended: each continuation parameter is taken from the
`PTCExecutionState` snapshot whenever the snapshot holds a usable
value, falling back to the continuation request's value otherwise; in
particular, when the snapshot is complete the continuation request's
parameters are ignored entirely, and the beta header never comes from
the continuation request. -/
theorem c2_amended (s : Snapshot) (cont cont' : RequestParams)
    (h : snapshotComplete s = true) :
    effectiveParams s cont = effectiveParams s cont' ∧
    (effectiveParams s cont).1 = s.params ∧
    (∀ c1 c2 : RequestParams, (effectiveParams s c1).2 = (effectiveParams s c2).2) := by
  obtain ⟨prm, beta⟩ := s
  obtain ⟨psys, pmodel, pmax, ptemp, ptp, ptk, pstop, ptc, pthink⟩ := prm
  simp only [snapshotComplete, Bool.and_eq_true] at h
  obtain ⟨⟨⟨⟨⟨⟨⟨⟨hsys, hmodel⟩, hmax⟩, htemp⟩, htp⟩, htk⟩, hstop⟩, htc⟩, hthink⟩ := h
  cases psys with
  | none => simp at hsys
  | some sv =>
  cases ptemp with
  | none => simp at htemp
  | some tv =>
  cases ptp with
  | none => simp at htp
  | some pv =>
  cases ptk with
  | none => simp at htk
  | some kv =>
  cases ptc with
  | none => simp at htc
  | some cv =>
  cases pthink with
  | none => simp at hthink
  | some hv =>
  replace htc : cv ≠ "" := by simpa using htc
  replace hthink : hv ≠ "" := by simpa using hthink
  refine ⟨?_, ?_, ?_⟩
  · simp [effectiveParams, hmodel, hmax, hstop, htc, hthink]
  · simp [effectiveParams, hmodel, hmax, hstop, htc, hthink]
  · intro c1 c2
    rfl

/-- C2 witness: a complete snapshot applied to two different
continuation requests selects identical parameters, namely the
snapshot's own. -/
theorem c2_witness :
    snapshotComplete
      { params := { system := some "S", model := "claude-x", maxTokens := 64,
                    temperature := some "0.5", topP := some "0.4", topK := some "7",
                    stopSequences := ["stop"], toolChoice := some "auto",
                    thinking := some "enabled" },
        anthropicBeta := some "beta-1" } = true ∧
    effectiveParams
      { params := { system := some "S", model := "claude-x", maxTokens := 64,
                    temperature := some "0.5", topP := some "0.4", topK := some "7",
                    stopSequences := ["stop"], toolChoice := some "auto",
                    thinking := some "enabled" },
        anthropicBeta := some "beta-1" }
      { system := some "client-system", temperature := some "0.99" } =
    effectiveParams
      { params := { system := some "S", model := "claude-x", maxTokens := 64,
                    temperature := some "0.5", topP := some "0.4", topK := some "7",
                    stopSequences := ["stop"], toolChoice := some "auto",
                    thinking := some "enabled" },
        anthropicBeta := some "beta-1" }
      {} :=
  ⟨by decide,
    (c2_amended
      { params := { system := some "S", model := "claude-x", maxTokens := 64,
                    temperature := some "0.5", topP := some "0.4", topK := some "7",
                    stopSequences := ["stop"], toolChoice := some "auto",
                    thinking := some "enabled" },
        anthropicBeta := some "beta-1" }
      { system := some "client-system", temperature := some "0.99" }
      {} (by decide)).1⟩

/-! ## C3 -/

/-- C3 counterexample: on the streaming continuation path a
session-miss is surfaced as an SSE error event of inner type
`api_error`, not as the distinguished `ptc_session_not_found` kind. -/
theorem c3_counterexample :
    (continuationStreamingMiss ([] : List (String × Nat)) "sess-123" "i-0abc" 3600).map
      SseErrorEvent.errorType = some "api_error" ∧
    some "api_error" ≠ some "ptc_session_not_found" :=
  ⟨rfl, by decide⟩

/-- C3 amended: a continuation whose container id matches no stored
`PTCExecutionState` fails without starting a fresh session — the
non-streaming path raises `ValueError` and the streaming path emits a
single SSE error event of inner type `api_error` — and the error
message cites sticky routing, but neither path labels the failure with
the distinguished `ptc_session_not_found` kind. -/
theorem c3_amended {α : Type} (states : List (String × α)) (sid inst : String)
    (timeout : Nat) (hmiss : lookupState states sid = none) :
    continuationLookup states sid inst timeout =
      Except.error (sessionNotFoundMessage sid inst timeout states.length) ∧
    strContains (sessionNotFoundMessage sid inst timeout states.length) "sticky" = true ∧
    continuationStreamingMiss states sid inst timeout =
      some { errorType := "api_error"
             message := sessionNotFoundMessage sid inst timeout states.length } ∧
    (continuationStreamingMiss states sid inst timeout).map SseErrorEvent.errorType ≠
      some "ptc_session_not_found" := by
  refine ⟨?_, ?_, ?_, ?_⟩
  · unfold continuationLookup
    rw [hmiss]
  · unfold sessionNotFoundMessage
    apply strContains_append_of_left
    apply strContains_append_of_right
    decide
  · unfold continuationStreamingMiss
    rw [hmiss]
  · unfold continuationStreamingMiss
    rw [hmiss]
    simp

/-- C3 witness: a node holding no sessions rejects the continuation for
container id `sess-123` with the sticky-routing message. -/
theorem c3_witness :
    lookupState ([] : List (String × Nat)) "sess-123" = none ∧
    (continuationLookup ([] : List (String × Nat)) "sess-123" "i-0abc" 3600 =
      Except.error (sessionNotFoundMessage "sess-123" "i-0abc" 3600 0) ∧
    strContains (sessionNotFoundMessage "sess-123" "i-0abc" 3600 0) "sticky" = true ∧
    continuationStreamingMiss ([] : List (String × Nat)) "sess-123" "i-0abc" 3600 =
      some { errorType := "api_error"
             message := sessionNotFoundMessage "sess-123" "i-0abc" 3600 0 } ∧
    (continuationStreamingMiss ([] : List (String × Nat)) "sess-123" "i-0abc" 3600).map
      SseErrorEvent.errorType ≠ some "ptc_session_not_found") :=
  ⟨rfl, c3_amended ([] : List (String × Nat)) "sess-123" "i-0abc" 3600 rfl⟩

/-! ## C4 -/

/-- `Char.toLower` never produces an uppercase `T`. -/
theorem char_toNat_ofNat_valid (n : Nat) (h : n.isValidChar) : (Char.ofNat n).toNat = n := by
  unfold Char.ofNat
  rw [dif_pos h]
  rfl

/-- No character lowercases to `T`. -/
theorem toLower_ne_T (c : Char) : Char.toLower c ≠ 'T' := by
  intro h
  have h84 : (Char.toLower c).toNat = 84 := by rw [h]; rfl
  unfold Char.toLower at h84
  by_cases hc : c.toNat ≥ 65 ∧ c.toNat ≤ 90
  · rw [if_pos hc] at h84
    have hv : (c.toNat + 32).isValidChar := Or.inl (by omega)
    rw [char_toNat_ofNat_valid _ hv] at h84
    omega
  · rw [if_neg hc] at h84
    exact hc ⟨by omega, by omega⟩

theorem isPre_mem (p l : List Char) (h : isPre p l = true) : ∀ x ∈ p, x ∈ l := by
  induction p generalizing l with
  | nil => intro x hx; simp at hx
  | cons y ps ih =>
    cases l with
    | nil => simp [isPre] at h
    | cons z t =>
      simp only [isPre, Bool.and_eq_true, beq_iff_eq] at h
      intro x hx
      rcases List.mem_cons.mp hx with hx | hx
      · subst hx
        exact h.1 ▸ List.mem_cons_self _ _
      · exact List.mem_cons_of_mem _ (ih t h.2 x hx)

theorem hasSub_mem (p l : List Char) (h : hasSub p l = true) : ∀ x ∈ p, x ∈ l := by
  induction l with
  | nil =>
    cases p with
    | nil => intro x hx; simp at hx
    | cons y ps => simp [hasSub, isPre] at h
  | cons z t ih =>
    simp only [hasSub, Bool.or_eq_true] at h
    rcases h with h | h
    · exact isPre_mem p (z :: t) h
    · intro x hx
      exact List.mem_cons_of_mem _ (ih h x hx)

/-- The `"serviceTier" in error_message.lower()` test of the retry
condition can never succeed: the lowercased message contains no
uppercase `T`. -/
theorem strContains_lower_serviceTier (s : String) :
    strContains (strLower s) "serviceTier" = false := by
  cases h : strContains (strLower s) "serviceTier" with
  | false => rfl
  | true =>
    exfalso
    unfold strContains at h
    have hT : 'T' ∈ (strLower s).toList :=
      hasSub_mem _ _ h 'T' (by decide)
    have : (strLower s).toList = s.toList.map Char.toLower := rfl
    rw [this] at hT
    obtain ⟨c, -, hc⟩ := List.mem_map.mp hT
    exact toLower_ne_T c hc

/-- C4 counterexample: the error message `Invalid serviceTier value`
matches the claim's `serviceTier` pattern, yet neither invoker retries
(the streaming worker surfaces the original error even though the
retry would have succeeded, and the sync invoker surfaces the original
error instead of the successful retry's response). -/
theorem c4_counterexample :
    claimServiceTierMatch "Invalid serviceTier value" = true ∧
    streamWorkerEnd "priority"
      (CallOutcome.clientErr "ValidationException" "Invalid serviceTier value") true =
      WorkerEnd.errored "ValidationException" "Invalid serviceTier value" ∧
    invokeSyncOutcome "priority"
      (CallOutcome.clientErr "ValidationException" "Invalid serviceTier value")
      (CallOutcome.ok (0 : Nat)) =
      Except.error ("ValidationException", "Invalid serviceTier value") := by
  exact ⟨by decide, by decide, rfl⟩

/-- C4 amended: the invokers retry exactly once iff the effective
service tier is truthy and non-default AND the lowercased error
message contains `service tier` or `does not support` (the
`serviceTier` pattern is compared case-sensitively against the
lowercased message and never fires); when the sync retry fails with a
backend client error the surfaced error is the retry's, while any
other sync retry failure and every streaming retry failure surface the
initial error. -/
theorem c4_amended {α : Type} (effTier c m rc rm : String) (r : α)
    (hcond : serviceTierRetryCondition effTier m = true) :
    (∀ tier msg, serviceTierRetryCondition tier msg = true ↔
      (tier ≠ "" ∧ tier ≠ "default" ∧
        (strContains (strLower msg) "service tier" = true ∨
         strContains (strLower msg) "does not support" = true))) ∧
    invokeSyncOutcome effTier (CallOutcome.clientErr c m) (CallOutcome.ok r) =
      Except.ok r ∧
    invokeSyncOutcome effTier (CallOutcome.clientErr c m) (CallOutcome.clientErr rc rm) =
      (Except.error (rc, rm) : Except (String × String) α) ∧
    invokeSyncOutcome effTier (CallOutcome.clientErr c m) (CallOutcome.otherErr "boom") =
      (Except.error (c, m) : Except (String × String) α) ∧
    streamWorkerEnd effTier (CallOutcome.clientErr c m) true = WorkerEnd.done ∧
    streamWorkerEnd effTier (CallOutcome.clientErr c m) false = WorkerEnd.errored c m := by
  refine ⟨?_, ?_, ?_, ?_, ?_, ?_⟩
  · intro tier msg
    unfold serviceTierRetryCondition
    rw [strContains_lower_serviceTier msg]
    simp [Bool.and_eq_true, bne, and_assoc]
  · simp [invokeSyncOutcome, hcond]
  · simp [invokeSyncOutcome, hcond]
  · simp [invokeSyncOutcome, hcond]
  · simp [streamWorkerEnd, hcond]
  · simp [streamWorkerEnd, hcond]

/-- C4 witness: with tier `priority` and message
`This model does not support the priority service tier`, the retry
condition fires; a client-error retry surfaces the retry's error and a
failed streaming retry surfaces the original error. -/
theorem c4_witness :
    serviceTierRetryCondition "priority"
      "This model does not support the priority service tier" = true ∧
    invokeSyncOutcome "priority"
      (CallOutcome.clientErr "ValidationException"
        "This model does not support the priority service tier")
      (CallOutcome.clientErr "ThrottlingException" "Too many requests") =
      (Except.error ("ThrottlingException", "Too many requests") : Except (String × String) Nat) ∧
    streamWorkerEnd "priority"
      (CallOutcome.clientErr "ValidationException"
        "This model does not support the priority service tier") false =
      WorkerEnd.errored "ValidationException"
        "This model does not support the priority service tier" := by
  refine ⟨by decide, ?_, ?_⟩
  · exact (c4_amended "priority" "ValidationException"
      "This model does not support the priority service tier"
      "ThrottlingException" "Too many requests" (0 : Nat) (by decide)).2.2.1
  · exact (c4_amended "priority" "ValidationException"
      "This model does not support the priority service tier"
      "ThrottlingException" "Too many requests" (0 : Nat) (by decide)).2.2.2.2.2

/-! ## C6 -/

theorem all_thinking_append (l : List Block) (b : Block)
    (hl : l.all Block.isThinkingKind = true) (hb : b.isThinkingKind = true) :
    (l ++ [b]).all Block.isThinkingKind = true := by
  simp only [List.all_append, List.all_cons, List.all_nil, Bool.and_eq_true]
  exact ⟨hl, hb, trivial⟩

theorem all_nonthinking_append (l : List Block) (b : Block)
    (hl : l.all (fun x => !x.isThinkingKind) = true) (hb : b.isThinkingKind = false) :
    (l ++ [b]).all (fun x => !x.isThinkingKind) = true := by
  simp only [List.all_append, List.all_cons, List.all_nil, Bool.and_eq_true]
  exact ⟨hl, by simp [hb], trivial⟩

theorem foldl_fcb_partition (bs : List Block) (acc : List Block × List Block)
    (h1 : acc.1.all Block.isThinkingKind = true)
    (h2 : acc.2.all (fun b => !b.isThinkingKind) = true) :
    (bs.foldl fcbStep acc).1.all Block.isThinkingKind = true ∧
    (bs.foldl fcbStep acc).2.all (fun b => !b.isThinkingKind) = true := by
  induction bs generalizing acc with
  | nil => exact ⟨h1, h2⟩
  | cons b rest ih =>
    simp only [List.foldl_cons]
    cases b with
    | thinking s =>
      exact ih _ (all_thinking_append _ _ h1 rfl) h2
    | redactedThinking d =>
      exact ih _ (all_thinking_append _ _ h1 rfl) h2
    | toolUse id name input caller =>
      cases caller with
      | none => exact ih _ h1 (all_nonthinking_append _ _ h2 rfl)
      | some c =>
        by_cases hc : (c.ctype != "" && c.ctype != "direct") = true
        · simp only [fcbStep, hc, if_true]
          exact ih _ h1 h2
        · have hc' : (c.ctype != "" && c.ctype != "direct") = false := by
            simpa using hc
          simp only [fcbStep, hc', Bool.false_eq_true, if_false]
          exact ih _ h1 (all_nonthinking_append _ _ h2 rfl)
    | text s => exact ih _ h1 (all_nonthinking_append _ _ h2 rfl)
    | toolResult t co => exact ih _ h1 (all_nonthinking_append _ _ h2 rfl)
    | serverToolUse i n inp => exact ih _ h1 h2
    | serverToolResult t => exact ih _ h1 h2
    | image => exact ih _ h1 (all_nonthinking_append _ _ h2 rfl)
    | document => exact ih _ h1 (all_nonthinking_append _ _ h2 rfl)

theorem foldl_fnd_partition (ids : List String) (bs : List Block)
    (acc : List Block × List Block)
    (h1 : acc.1.all Block.isThinkingKind = true)
    (h2 : acc.2.all (fun b => !b.isThinkingKind) = true) :
    (bs.foldl (fndStep ids "assistant") acc).1.all Block.isThinkingKind = true ∧
    (bs.foldl (fndStep ids "assistant") acc).2.all (fun b => !b.isThinkingKind) = true := by
  induction bs generalizing acc with
  | nil => exact ⟨h1, h2⟩
  | cons b rest ih =>
    simp only [List.foldl_cons]
    cases b with
    | thinking s =>
      exact ih _ (all_thinking_append _ _ h1 rfl) h2
    | redactedThinking d =>
      exact ih _ (all_thinking_append _ _ h1 rfl) h2
    | toolUse id name input caller =>
      by_cases hc : ids.contains id = true
      · simp only [fndStep, hc, if_true]
        exact ih _ h1 h2
      · have hc' : ids.contains id = false := by simpa using hc
        simp only [fndStep, hc', Bool.false_eq_true, if_false]
        exact ih _ h1 (all_nonthinking_append _ _ h2 rfl)
    | toolResult t co =>
      by_cases hc : ids.contains t = true
      · simp only [fndStep, hc, if_true]
        exact ih _ h1 h2
      · have hc' : ids.contains t = false := by simpa using hc
        simp only [fndStep, hc', Bool.false_eq_true, if_false]
        exact ih _ h1 (all_nonthinking_append _ _ h2 rfl)
    | text s => exact ih _ h1 (all_nonthinking_append _ _ h2 rfl)
    | serverToolUse i n inp => exact ih _ h1 h2
    | serverToolResult t => exact ih _ h1 (all_nonthinking_append _ _ h2 rfl)
    | image => exact ih _ h1 (all_nonthinking_append _ _ h2 rfl)
    | document => exact ih _ h1 (all_nonthinking_append _ _ h2 rfl)

theorem dropWhile_append_of_all {α : Type} (p : α → Bool) (l1 l2 : List α)
    (h : l1.all p = true) : (l1 ++ l2).dropWhile p = l2.dropWhile p := by
  induction l1 with
  | nil => rfl
  | cons a t ih =>
    simp only [List.all_cons, Bool.and_eq_true] at h
    simp [List.dropWhile_cons, h.1, ih h.2]

theorem thinkingFirst_of_parts (th ot : List Block)
    (h1 : th.all Block.isThinkingKind = true)
    (h2 : ot.all (fun b => !b.isThinkingKind) = true) :
    thinkingFirst (th ++ ot) = true := by
  unfold thinkingFirst
  rw [dropWhile_append_of_all _ _ _ h1]
  cases ot with
  | nil => rfl
  | cons a t =>
    simp only [List.all_cons, Bool.and_eq_true] at h2
    have ha : Block.isThinkingKind a = false := by simpa using h2.1
    simp [List.dropWhile_cons, ha, List.all_cons, h2.1, h2.2]

/-- C6 counterexample: an assistant message whose content lists a text
block before a thinking block passes unchanged both through the
history filter (early return: no non-direct ids, no caller fields) and
through the native request converter, so the backend receives an
assistant message whose thinking block does not come first. -/
theorem c6_counterexample :
    convertMessagesNative
        [{ role := "assistant", content := .blocks [Block.text "hi", Block.thinking "t"] }] =
      [{ role := "assistant", content := .blocks [Block.text "hi", Block.thinking "t"] }] ∧
    filterNonDirectToolCalls
        [{ role := "assistant", content := .blocks [Block.text "hi", Block.thinking "t"] }] =
      [{ role := "assistant", content := .blocks [Block.text "hi", Block.thinking "t"] }] ∧
    thinkingFirst [Block.text "hi", Block.thinking "t"] = false :=
  ⟨rfl, by decide, by decide⟩

/-- C6 amended: assistant content that actually passes through a PTC
filter is thinking-first — `_filter_content_blocks_for_bedrock` always
reorders, and `_filter_non_direct_tool_calls` reorders every assistant
message it rewrites (i.e. whenever some non-direct id or caller field
triggers rewriting) — but messages that bypass these filters keep the
client's block order through the native request converter. -/
theorem c6_amended (bs : List Block) (msgs : List Message) (m : Message)
    (bs' : List Block)
    (htrig : nonDirectToolIds msgs ≠ [] ∨ anyCallerField msgs = true)
    (hm : m ∈ filterNonDirectToolCalls msgs)
    (hrole : m.role = "assistant")
    (hcontent : m.content = .blocks bs') :
    thinkingFirst (filterContentBlocksForBedrock bs) = true ∧
    thinkingFirst bs' = true := by
  constructor
  · unfold filterContentBlocksForBedrock
    have h := foldl_fcb_partition bs ([], []) rfl rfl
    exact thinkingFirst_of_parts _ _ h.1 h.2
  · have hcond : (List.isEmpty (nonDirectToolIds msgs) && !anyCallerField msgs) = false := by
      rcases htrig with h | h
      · simp [List.isEmpty_iff, h]
      · simp [h]
    simp only [filterNonDirectToolCalls, hcond, Bool.false_eq_true, if_false] at hm
    obtain ⟨orig, horig, hf⟩ := List.mem_filterMap.mp hm
    cases horigc : orig.content with
    | str s =>
      rw [horigc] at hf
      simp only [Option.some.injEq] at hf
      rw [← hf, horigc] at hcontent
      exact absurd hcontent (by simp)
    | blocks obs =>
      rw [horigc] at hf
      simp only [] at hf
      by_cases hemp : (((obs.foldl (fndStep (nonDirectToolIds msgs) orig.role) ([], [])).1 ++
          (obs.foldl (fndStep (nonDirectToolIds msgs) orig.role) ([], [])).2).isEmpty) = true
      · rw [if_pos hemp] at hf
        exact absurd hf (by simp)
      · rw [if_neg (by simpa using hemp)] at hf
        simp only [Option.some.injEq] at hf
        have hrole' : orig.role = "assistant" := by
          rw [← hf] at hrole
          exact hrole
        rw [← hf] at hcontent
        simp only [Content.blocks.injEq] at hcontent
        rw [hrole'] at hcontent
        have h := foldl_fnd_partition (nonDirectToolIds msgs) obs ([], []) rfl rfl
        rw [← hcontent]
        exact thinkingFirst_of_parts _ _ h.1 h.2

/-- C6 witness: a history containing a caller field triggers rewriting,
and the rewritten assistant message comes out thinking-first. -/
theorem c6_witness :
    (nonDirectToolIds
        [{ role := "assistant",
           content := .blocks [Block.text "x", Block.thinking "t",
             Block.toolUse "id1" "get" "args" (some { ctype := "direct" })] }] ≠ [] ∨
      anyCallerField
        [{ role := "assistant",
           content := .blocks [Block.text "x", Block.thinking "t",
             Block.toolUse "id1" "get" "args" (some { ctype := "direct" })] }] = true) ∧
    ({ role := "assistant",
       content := .blocks [Block.thinking "t", Block.text "x",
         Block.toolUse "id1" "get" "args" none] } : Message) ∈
      filterNonDirectToolCalls
        [{ role := "assistant",
           content := .blocks [Block.text "x", Block.thinking "t",
             Block.toolUse "id1" "get" "args" (some { ctype := "direct" })] }] ∧
    (thinkingFirst (filterContentBlocksForBedrock [Block.text "a", Block.thinking "b"]) = true ∧
     thinkingFirst [Block.thinking "t", Block.text "x",
       Block.toolUse "id1" "get" "args" none] = true) :=
  ⟨Or.inr (by decide), by decide,
    c6_amended [Block.text "a", Block.thinking "b"]
      [{ role := "assistant",
         content := .blocks [Block.text "x", Block.thinking "t",
           Block.toolUse "id1" "get" "args" (some { ctype := "direct" })] }]
      { role := "assistant",
        content := .blocks [Block.thinking "t", Block.text "x",
          Block.toolUse "id1" "get" "args" none] }
      [Block.thinking "t", Block.text "x", Block.toolUse "id1" "get" "args" none]
      (Or.inr (by decide)) (by decide) rfl rfl⟩

/-! ## C8 -/

/-- CJK characters of a text. -/
def countCjk (s : String) : Nat := (s.toList.filter isCjkChar).length

/-- Non-CJK characters of a text. -/
def countNonCjk (s : String) : Nat := (s.toList.filter (fun c => !isCjkChar c)).length

theorem textTokens_eq_floor (t : String) :
    textTokens t = Nat.floor ((countCjk t : ℚ) + (countNonCjk t : ℚ) / 4) := by
  rw [add_comm ((countCjk t : ℚ)) ((countNonCjk t : ℚ) / 4)]
  rw [show (4 : ℚ) = ((4 : ℕ) : ℚ) by norm_cast]
  rw [Nat.floor_add_nat (by positivity)]
  rw [Nat.floor_div_eq_div]
  simp only [textTokens, countCjk, countNonCjk]
  have hlen := @List.length_eq_length_filter_add _ t.toList isCjkChar
  omega

theorem foldl_texts (texts : List String) (acc : Nat) :
    texts.foldl estStep acc = acc + (texts.map textTokens).sum := by
  induction texts generalizing acc with
  | nil => simp
  | cons t rest ih =>
    by_cases ht : (t == "") = true
    · have ht' : t = "" := eq_of_beq ht
      subst ht'
      have h0 : textTokens "" = 0 := by decide
      simp only [List.foldl_cons, estStep, beq_self_eq_true, if_true, ih,
        List.map_cons, List.sum_cons, h0]
      omega
    · have ht' : (t == "") = false := by simpa using ht
      simp only [List.foldl_cons, estStep, ht', Bool.false_eq_true, if_false, ih,
        List.map_cons, List.sum_cons]
      omega

theorem floor_mul_2120 (n : ℕ) :
    Nat.floor ((n : ℚ) * (21 / 20 : ℚ)) = 21 * n / 20 := by
  have h : (n : ℚ) * (21 / 20 : ℚ) = ((21 * n : ℕ) : ℚ) / ((20 : ℕ) : ℚ) := by
    push_cast
    ring
  rw [h, Nat.floor_div_eq_div]

/-- C8: the fallback estimator computes, per collected text,
`floor(cjk + nonCjk/4)` tokens (one per CJK character, a quarter per
other character), adds 85 per image and 250 per document block,
multiplies by 1.05 (= 21/20, floored) and returns the maximum of 1 and
that result. -/
theorem c8_estimator_formula (req : BedrockShapedRequest) :
    estimateTokenCount req =
      max 1 (Nat.floor ((((((collectTexts req).map
            (fun t => Nat.floor ((countCjk t : ℚ) + (countNonCjk t : ℚ) / 4))).sum +
          85 * countImages req + 250 * countDocuments req : ℕ) : ℚ) * (21 / 20 : ℚ)))) := by
  unfold estimateTokenCount
  rw [foldl_texts]
  rw [Nat.zero_add]
  have hmap : (collectTexts req).map textTokens =
      (collectTexts req).map
        (fun t => Nat.floor ((countCjk t : ℚ) + (countNonCjk t : ℚ) / 4)) := by
    apply List.map_congr_left
    intro t _
    exact textTokens_eq_floor t
  rw [floor_mul_2120, hmap]

/-! ## C9 -/

theorem textTokens_insert (s1 s2 : String) (c : Char) :
    textTokens (s1 ++ s2) ≤ textTokens (s1 ++ String.mk [c] ++ s2) := by
  unfold textTokens
  have h1 : (s1 ++ s2).toList = s1.toList ++ s2.toList := by
    simp [String.toList, String.data_append]
  have h2 : (s1 ++ String.mk [c] ++ s2).toList = s1.toList ++ c :: s2.toList := by
    simp only [String.toList, String.data_append]
    simp [List.append_assoc]
  rw [h1, h2]
  have hf1 := List.length_filter_le isCjkChar s1.toList
  have hf2 := List.length_filter_le isCjkChar s2.toList
  by_cases hc : isCjkChar c = true
  · simp only [List.filter_append, List.filter_cons, hc, if_true,
      List.length_append, List.length_cons]
    omega
  · have hc' : isCjkChar c = false := by simpa using hc
    simp only [List.filter_append, List.filter_cons, hc', Bool.false_eq_true, if_false,
      List.length_append, List.length_cons]
    omega

/-- C9: the token estimator is monotone — inserting a single character
into any collected text of a request never decreases the estimate. -/
theorem c9_estimator_monotone (req req' : BedrockShapedRequest)
    (pre post : List String) (s1 s2 : String) (c : Char)
    (ht : collectTexts req = pre ++ (s1 ++ s2) :: post)
    (ht' : collectTexts req' = pre ++ (s1 ++ String.mk [c] ++ s2) :: post)
    (himg : countImages req' = countImages req)
    (hdoc : countDocuments req' = countDocuments req) :
    estimateTokenCount req ≤ estimateTokenCount req' := by
  unfold estimateTokenCount
  rw [foldl_texts, foldl_texts, ht, ht', himg, hdoc]
  simp only [List.map_append, List.map_cons, List.sum_append, List.sum_cons, Nat.zero_add]
  have hmid := textTokens_insert s1 s2 c
  apply max_le_max le_rfl
  apply Nat.div_le_div_right
  apply Nat.mul_le_mul_left
  omega

/-- C9 witness: growing the single system text from `ab` to `abc` does
not decrease the estimate. -/
theorem c9_witness :
    collectTexts { system := [some "ab"] } = [] ++ ("ab" ++ "") :: [] ∧
    collectTexts { system := [some "abc"] } = [] ++ ("ab" ++ String.mk ['c'] ++ "") :: [] ∧
    countImages { system := [some "abc"] } = countImages { system := [some "ab"] } ∧
    countDocuments { system := [some "abc"] } = countDocuments { system := [some "ab"] } ∧
    estimateTokenCount { system := [some "ab"] } ≤ estimateTokenCount { system := [some "abc"] } :=
  ⟨by decide, by decide, rfl, rfl,
    c9_estimator_monotone { system := [some "ab"] } { system := [some "abc"] }
      [] [] "ab" "" 'c' (by decide) (by decide) rfl rfl⟩

/-! ## C1 -/

theorem lastAssistantIdx_eq_none_iff (msgs : List Message) :
    lastAssistantIdx msgs = none ↔
      msgs.any (fun x => x.role == "assistant") = false := by
  induction msgs with
  | nil => simp [lastAssistantIdx]
  | cons m rest ih =>
    cases hL : lastAssistantIdx rest with
    | some j =>
      have hrest : rest.any (fun x => x.role == "assistant") ≠ false := by
        intro hx
        have := (ih).mpr hx
        rw [hL] at this
        exact Option.noConfusion this
      constructor
      · intro hx
        simp [lastAssistantIdx, hL] at hx
      · intro hx
        simp only [List.any_cons, Bool.or_eq_false_iff] at hx
        exact absurd hx.2 hrest
    | none =>
      have hrest : rest.any (fun x => x.role == "assistant") = false := ih.mp hL
      constructor
      · intro hx
        simp only [lastAssistantIdx, hL] at hx
        by_cases hr : (m.role == "assistant") = true
        · rw [if_pos hr] at hx
          exact Option.noConfusion hx
        · have hr' : (m.role == "assistant") = false := by simpa using hr
          simp [List.any_cons, hr', hrest]
      · intro hx
        simp only [List.any_cons, Bool.or_eq_false_iff] at hx
        simp [lastAssistantIdx, hL, hx.1]

theorem finalizeKeptAux_shift (rest : List Message) (j i : Nat) :
    finalizeKeptAux (some (j + 1)) (i + 1) rest = finalizeKeptAux (some j) i rest := by
  induction rest generalizing i with
  | nil => rfl
  | cons m r ih =>
    have hb : ((j + 1 : Nat) == (i + 1)) = ((j : Nat) == i) := by simp
    simp only [finalizeKeptAux, hb]
    by_cases hc : (m.role == "assistant" && ((j : Nat) == i)) = true
    · rw [if_pos hc, if_pos hc]
      exact ih (i + 1)
    · rw [if_neg hc, if_neg hc]
      cases keepAtFinalize m with
      | some m' => rw [ih (i + 1)]
      | none => exact ih (i + 1)

theorem finalizeKeptAux_of_no_assistant (rest : List Message)
    (h : rest.any (fun x => x.role == "assistant") = false) (L : Option Nat) (i : Nat) :
    finalizeKeptAux L i rest = finalizeKeptMessagesAmended rest := by
  induction rest generalizing i with
  | nil => rfl
  | cons m r ih =>
    simp only [List.any_cons, Bool.or_eq_false_iff] at h
    simp only [finalizeKeptAux, finalizeKeptMessagesAmended, h.1, Bool.false_and,
      Bool.false_eq_true, if_false]
    cases keepAtFinalize m with
    | some m' => rw [ih h.2 (i + 1)]
    | none => exact ih h.2 (i + 1)

theorem finalizeKept_eq (msgs : List Message) :
    finalizeKeptMessages msgs = finalizeKeptMessagesAmended msgs := by
  induction msgs with
  | nil => rfl
  | cons m rest ih =>
    unfold finalizeKeptMessages
    cases hL : lastAssistantIdx rest with
    | some j =>
      have hcons : lastAssistantIdx (m :: rest) = some (j + 1) := by
        simp [lastAssistantIdx, hL]
      rw [hcons]
      have hany : rest.any (fun x => x.role == "assistant") = true := by
        by_cases hx : rest.any (fun x => x.role == "assistant") = false
        · have := (lastAssistantIdx_eq_none_iff rest).mpr hx
          rw [hL] at this
          exact Option.noConfusion this
        · simpa using hx
      have hzero : ((j + 1 : Nat) == (0 : Nat)) = false := rfl
      have hrec : finalizeKeptAux (some (j + 1)) 1 rest = finalizeKeptMessagesAmended rest := by
        rw [finalizeKeptAux_shift rest j 0]
        have : finalizeKeptAux (some j) 0 rest = finalizeKeptMessages rest := by
          unfold finalizeKeptMessages
          rw [hL]
        rw [this, ih]
      simp only [finalizeKeptAux, finalizeKeptMessagesAmended, hzero, hany,
        Bool.and_false, Bool.not_true, Bool.false_eq_true, if_false]
      cases keepAtFinalize m with
      | some m' => rw [hrec]
      | none => exact hrec
    | none =>
      have hany : rest.any (fun x => x.role == "assistant") = false :=
        (lastAssistantIdx_eq_none_iff rest).mp hL
      by_cases hr : (m.role == "assistant") = true
      · have hcons : lastAssistantIdx (m :: rest) = some 0 := by
          simp [lastAssistantIdx, hL, hr]
        rw [hcons]
        have hcond : (m.role == "assistant" &&
            (match (some 0 : Option Nat) with
             | some k => k == (0 : Nat)
             | none => false)) = true := by
          simp [hr]
        have hcond' : (m.role == "assistant" &&
            !(rest.any (fun x => x.role == "assistant"))) = true := by
          simp [hr, hany]
        simp only [finalizeKeptAux, finalizeKeptMessagesAmended, hcond, hcond', if_true]
        exact finalizeKeptAux_of_no_assistant rest hany (some 0) 1
      · have hr' : (m.role == "assistant") = false := by simpa using hr
        have hcons : lastAssistantIdx (m :: rest) = none := by
          simp [lastAssistantIdx, hL, hr']
        rw [hcons]
        simp only [finalizeKeptAux, finalizeKeptMessagesAmended, hr', Bool.false_and,
          Bool.false_eq_true, if_false]
        cases keepAtFinalize m with
        | some m' => rw [finalizeKeptAux_of_no_assistant rest hany none 1]
        | none => exact finalizeKeptAux_of_no_assistant rest hany none 1

/-- C1 counterexample: a continuation history containing a user
message with a `tool_result` for a DIRECT (client-executed) tool call.
The claim keeps that message (its `tool_result` is not for an internal
call), but `_finalize_code_execution` drops every user message
containing any `tool_result`, so the rebuilt message lists differ. -/
theorem c1_counterexample :
    finalizeMessages
      [{ role := "user", content := .str "hi" },
       { role := "assistant", content := .blocks [Block.toolUse "t1" "lookup" "args" none] },
       { role := "user", content := .blocks [Block.toolResult "t1" "42"] },
       { role := "assistant", content := .blocks
          [Block.serverToolUse "srv1" "code_execution" "code",
           Block.toolUse "pt1" "get_price" "args"
             (some { ctype := "code_execution_20250825", toolId := some "srv1" })] },
       { role := "user", content := .blocks [Block.toolResult "pt1" "5"] }]
      [Block.thinking "th", Block.toolUse "exec1" "execute_code" "code" none]
      (some "exec1") "srvtoolu_abcdef123456" { success := true, stdout := "out", stderr := "" } ≠
    finalizeMessagesClaim
      [{ role := "user", content := .str "hi" },
       { role := "assistant", content := .blocks [Block.toolUse "t1" "lookup" "args" none] },
       { role := "user", content := .blocks [Block.toolResult "t1" "42"] },
       { role := "assistant", content := .blocks
          [Block.serverToolUse "srv1" "code_execution" "code",
           Block.toolUse "pt1" "get_price" "args"
             (some { ctype := "code_execution_20250825", toolId := some "srv1" })] },
       { role := "user", content := .blocks [Block.toolResult "pt1" "5"] }]
      [Block.thinking "th", Block.toolUse "exec1" "execute_code" "code" none]
      (some "exec1") "srvtoolu_abcdef123456" { success := true, stdout := "out", stderr := "" } := by
  decide

/-- C1 amended: at finalization with stored assistant content, the
non-streaming rebuild keeps the client messages except the last
assistant message and EVERY user message containing any `tool_result`
block (not only internal ones), Bedrock-filters kept assistant
content (dropping messages emptied by the filter), then appends the
Bedrock-FILTERED stored assistant content and the `tool_result` user
message (stdout / placeholder / `Error: ` + stderr) targeting the
stored execute_code id; the streaming rebuild additionally drops every
assistant message. -/
theorem c1_amended (msgs : List Message) (stored : List Block) (oid : Option String)
    (cid : String) (res : ExecutionResult) :
    finalizeMessages msgs stored oid cid res =
      finalizeKeptMessagesAmended msgs ++
      [{ role := "assistant", content := .blocks (filterContentBlocksForBedrock stored) },
       { role := "user", content := .blocks
          [Block.toolResult (resolvedExecId oid cid) (toolResultContent res)] }] ∧
    finalizeMessagesStreaming msgs stored oid cid res =
      (msgs.filter (fun m => !(m.role == "assistant") &&
        !(m.role == "user" && contentHasToolResult m.content))) ++
      [{ role := "assistant", content := .blocks (filterContentBlocksForBedrock stored) },
       { role := "user", content := .blocks
          [Block.toolResult (resolvedExecId oid cid) (toolResultContent res)] }] := by
  constructor
  · unfold finalizeMessages
    rw [finalizeKept_eq]
  · rfl

end AAC
